import Mathlib

/-!
Verification of `files_mover.py` (`FilesSeparator`), a batch file separator:
it lists the direct-child files of a work folder, optionally sorts them,
and moves them in batches of `num` into freshly created numbered folders.

The embedding below follows the Python source closely:
* `initFiles`, `initSeparator` model `FilesSeparator.__init__` (lines 89-110):
  directory listing with the running script's own name removed, the batch
  size, folder-naming data and the folder count `len(files) // num +
  (1 if len(files) % num else 0)` computed with Python floor division
  (`Int.fdiv`) and Python modulo (`Int.fmod`); `num = 0` raises
  `ZeroDivisionError` there, any other int is accepted unchecked.
* `sortFiles` models `FilesSeparator._sort_files` (lines 121-136): a string
  keyed dispatch over the five key functions, an unknown selector sorts
  nothing.  Python's `list.sort` is a stable ascending sort; with
  `reverse=True` CPython reverses the list before and after the stable
  ascending sort.  `sortAsc` (stable insertion sort) produces exactly the
  output of a stable ascending sort, and `sortByKey` adds the two
  reversals.  File metadata (`os.path.getctime` etc.) is supplied by an
  environment `String → FileMeta`; timestamps and sizes are modelled by
  their order type `Nat`.
* `Separator.info` models `FilesSeparator.info` (lines 138-153); the dict
  keys become the fields of `InfoRec` in order.
* `move`, `runBatches` model `FilesSeparator.move` (lines 173-195) in the
  positive batch-size regime: the work folder is the list `root` of its
  direct-child entry names (files and folders alike, as seen by
  `os.listdir`); batch `i` is the slice `files[i*num : (i+1)*num)` moved
  by the inner `j` loop with its bounds check; `os.mkdir` prepends the new
  folder name to `root`; each `os.rename` removes the moved file from
  `root`.  The two `raise ValueError` sites become the `emptyInputError`
  ("No files to move!") and `conflictError` ("Folder already exists!")
  outcomes, each carrying the folders created so far and the work-folder
  entries at the moment the exception is raised.
-/

namespace FilesMover

/-- `SCRIPT_NAME = "files_mover.py"` (line 4 of the source). -/
def SCRIPT_NAME : String := "files_mover.py"

/-- Per-file filesystem metadata consulted by the sort keys: creation
time, modification time and size, modelled by their order type. -/
structure FileMeta where
  ctime : Nat
  mtime : Nat
  size : Nat
  deriving DecidableEq

/-- Splits a character list at its last dot: returns the characters
before the last `'.'` and the suffix starting at that `'.'`, or `none`
when there is no dot. -/
def lastDotSplit : List Char → Option (List Char × List Char)
  | [] => none
  | c :: rest =>
    match lastDotSplit rest with
    | some (b, e) => some (c :: b, e)
    | none => if c = '.' then some ([], c :: rest) else none

/-- Model of `os.path.splitext(f)[1]` for a plain file name (no path
separators): the suffix from the last dot, except that a name whose
characters before the last dot are all dots (such as `".bashrc"`) has
extension `""`. -/
def fileExt (f : String) : String :=
  match lastDotSplit f.toList with
  | some (b, e) => if b.any (fun c => c ≠ '.') then String.mk e else ""
  | none => ""

/-- Insertion step of a stable ascending insertion sort by `key`:
`x` is placed before the first element whose key is not smaller. -/
def insertByKey {K : Type} [LinearOrder K] (key : String → K) (x : String) :
    List String → List String
  | [] => [x]
  | y :: ys => if key x ≤ key y then x :: y :: ys else y :: insertByKey key x ys

/-- Stable ascending sort by `key`.  A stable sort's output is uniquely
determined, so this insertion sort produces exactly the output of
Python's stable `list.sort(key=...)`. -/
def sortAsc {K : Type} [LinearOrder K] (key : String → K) : List String → List String
  | [] => []
  | x :: xs => insertByKey key x (sortAsc key xs)

/-- Python `files.sort(key=key, reverse=rev)`: CPython implements
`reverse=True` by reversing the list before and after the stable
ascending sort, so ties keep their original relative order. -/
def sortByKey {K : Type} [LinearOrder K] (key : String → K) (rev : Bool)
    (files : List String) : List String :=
  if rev then (sortAsc key files.reverse).reverse else sortAsc key files

/-- `FilesSeparator._sort_files` (lines 121-136): dispatch over the
`sorting_vars` table; a selector that is not a key of the table sorts
nothing.  `os.path.basename` of a separator-free file name is the name
itself, hence the `"name"` key is the name and the `"type"` key its
extension; Python compares strings as their sequences of code points,
which is exactly the lexicographic order on `String.toList`. -/
def sortFiles (meta : String → FileMeta) (sorting : String) (rev : Bool)
    (files : List String) : List String :=
  if sorting = "ctime" then sortByKey (fun f => (meta f).ctime) rev files
  else if sorting = "mtime" then sortByKey (fun f => (meta f).mtime) rev files
  else if sorting = "name" then sortByKey (fun f => f.toList) rev files
  else if sorting = "size" then sortByKey (fun f => (meta f).size) rev files
  else if sorting = "type" then sortByKey (fun f => (fileExt f).toList) rev files
  else files

/-- Lines 101-103: the work folder's direct-child file names with the
running script's own name removed when present (`list.remove` deletes
the first occurrence). -/
def initFiles (entries : List String) : List String :=
  if SCRIPT_NAME ∈ entries then entries.erase SCRIPT_NAME else entries

/-- Python exceptions that `__init__` can raise. -/
inductive PyExc where
  | valueError (msg : String)
  | zeroDivisionError
  deriving DecidableEq

/-- The state of a constructed `FilesSeparator` object. -/
structure Separator where
  workFolder : String
  files : List String
  n : Int
  startFolderName : String
  startFolderNum : Int
  maxFolderNum : Int
  sorting : String
  reverse : Bool
  deriving DecidableEq

/-- `FilesSeparator.__init__` (lines 89-110).  `entries` is the directory
listing of the work folder's files, `num` an arbitrary Python int.  The
only failing computation is `len(files) // num` with `num = 0`
(`ZeroDivisionError`); Python `//` is `Int.fdiv` and Python `%` is
`Int.fmod`.  No validation of `num` or of the sort selector happens. -/
def initSeparator (entries : List String) (workFolder : String) (num : Int)
    (startFolderName : String) (startFolderNum : Int) (sorting : String)
    (reverse : Bool) : Except PyExc Separator :=
  let files := initFiles entries
  if num = 0 then .error .zeroDivisionError
  else
    .ok { workFolder := workFolder
          files := files
          n := num
          startFolderName := startFolderName
          startFolderNum := startFolderNum
          maxFolderNum :=
            Int.fdiv files.length num +
              (if Int.fmod files.length num ≠ 0 then 1 else 0)
          sorting := sorting
          reverse := reverse }

/-- The record returned by `FilesSeparator.info` (lines 138-153); fields
are the dict entries in order. -/
structure InfoRec where
  currentDirectory : String
  numberOfFiles : Nat
  numberOfFoldersToCreate : Int
  startFolder : String
  endFolder : String
  deriving DecidableEq

/-- `FilesSeparator.info` (lines 138-153). -/
def Separator.info (sep : Separator) : InfoRec :=
  { currentDirectory := sep.workFolder
    numberOfFiles := sep.files.length
    numberOfFoldersToCreate := sep.maxFolderNum
    startFolder := sep.startFolderName ++ toString sep.startFolderNum
    endFolder :=
      sep.startFolderName ++ toString (sep.maxFolderNum + sep.startFolderNum - 1) }

/-- Lines 107-108 in the positive batch-size regime: the folder count
`n / num + (1 if n % num else 0)`. -/
def maxFolderNum (n num : Nat) : Nat :=
  n / num + (if n % num ≠ 0 then 1 else 0)

/-- Line 184: the destination folder name of batch `i`,
`f"{start_folder_name}{i + start_folder_num}"`. -/
def folderName (nm : String) (startNum : Int) (i : Nat) : String :=
  nm ++ toString (startNum + (i : Int))

/-- The files the inner `j` loop (lines 189-194) moves for batch `i`:
`files[j]` for `j` from `i*num` up to `(i+1)*num` exclusive, stopping at
`len(files)`. -/
def batchAt (num : Nat) (sfiles : List String) (i : Nat) : List String :=
  (sfiles.drop (i * num)).take num

/-- Outcome of `FilesSeparator.move`: normal return, or one of the two
`ValueError` raises ("Folder already exists!" / "No files to move!").
Each constructor carries the destination folders created so far with
their contents, and the work folder's direct-child entries at the end. -/
inductive MoveResult where
  | ok (folders : List (String × List String)) (root : List String)
  | conflictError (folders : List (String × List String)) (root : List String)
  | emptyInputError (folders : List (String × List String)) (root : List String)
  deriving DecidableEq

/-- The outer `i` loop of `move` (lines 183-194) over the remaining batch
indices.  `root` is the current direct-child listing of the work folder:
the conflict check is `folder in os.listdir(...)`; `os.mkdir` prepends
the folder; each `os.rename` of a batch file removes it from `root`. -/
def runBatches (nm : String) (startNum : Int) (num : Nat) (sfiles : List String) :
    List Nat → List String → MoveResult
  | [], root => .ok [] root
  | i :: rest, root =>
    let folder := folderName nm startNum i
    if folder ∈ root then .conflictError [] root
    else
      let batch := batchAt num sfiles i
      match runBatches nm startNum num sfiles rest
          (folder :: root.filter (fun e => decide (e ∉ batch))) with
      | .ok folders root2 => .ok ((folder, batch) :: folders) root2
      | .conflictError folders root2 => .conflictError ((folder, batch) :: folders) root2
      | .emptyInputError folders root2 => .emptyInputError folders root2

/-- The work-folder listing after the batches in `processed` have been
fully handled: each step adds the created folder and removes the moved
batch files. -/
def rootAfter (nm : String) (startNum : Int) (num : Nat) (sfiles : List String)
    (root : List String) (processed : List Nat) : List String :=
  processed.foldl
    (fun r i =>
      folderName nm startNum i ::
        r.filter (fun e => decide (e ∉ batchAt num sfiles i)))
    root

/-- `FilesSeparator.move` (lines 173-195) in the positive batch-size
regime: raise on an empty file list, sort, then run every batch index in
`range(max_folder_num)`. -/
def move (meta : String → FileMeta) (sorting : String) (reverse : Bool)
    (nm : String) (startNum : Int) (num : Nat) (files root : List String) :
    MoveResult :=
  if files.isEmpty then .emptyInputError [] root
  else
    runBatches nm startNum num (sortFiles meta sorting reverse files)
      (List.range (maxFolderNum files.length num)) root

/-! ### Basic facts about the sorting step -/

theorem insertByKey_perm {K : Type} [LinearOrder K] (key : String → K) (x : String)
    (l : List String) : (insertByKey key x l).Perm (x :: l) := by
  induction l with
  | nil => exact List.Perm.refl _
  | cons y ys ih =>
    simp only [insertByKey]
    split
    · exact List.Perm.refl _
    · exact (ih.cons y).trans (List.Perm.swap x y ys)

theorem sortAsc_perm {K : Type} [LinearOrder K] (key : String → K) (l : List String) :
    (sortAsc key l).Perm l := by
  induction l with
  | nil => exact List.Perm.refl _
  | cons x xs ih =>
    exact (insertByKey_perm key x (sortAsc key xs)).trans (ih.cons x)

theorem sortByKey_perm {K : Type} [LinearOrder K] (key : String → K) (rev : Bool)
    (l : List String) : (sortByKey key rev l).Perm l := by
  unfold sortByKey
  split
  · exact (List.reverse_perm _).trans
      ((sortAsc_perm key l.reverse).trans (List.reverse_perm l))
  · exact sortAsc_perm key l

theorem sortFiles_perm (meta : String → FileMeta) (sorting : String) (rev : Bool)
    (l : List String) : (sortFiles meta sorting rev l).Perm l := by
  unfold sortFiles
  split_ifs <;> first | exact sortByKey_perm _ _ _ | exact List.Perm.refl _

theorem sortFiles_length (meta : String → FileMeta) (sorting : String) (rev : Bool)
    (l : List String) : (sortFiles meta sorting rev l).length = l.length :=
  (sortFiles_perm meta sorting rev l).length_eq

theorem filter_insertByKey {K : Type} [LinearOrder K] (key : String → K) (x : String)
    (k : K) (l : List String) :
    (insertByKey key x l).filter (fun y => decide (key y = k)) =
      if key x = k then x :: l.filter (fun y => decide (key y = k))
      else l.filter (fun y => decide (key y = k)) := by
  induction l with
  | nil =>
    by_cases h : key x = k <;> simp [insertByKey, List.filter, h]
  | cons y ys ih =>
    simp only [insertByKey]
    split
    case isTrue hle =>
      by_cases hx : key x = k <;> simp [List.filter_cons, hx]
    case isFalse hle =>
      have hlt : key y < key x := lt_of_not_le hle
      rw [List.filter_cons, ih]
      by_cases hx : key x = k
      · have hy : ¬ (key y = k) := by
          rw [← hx]; exact (ne_of_lt hlt)
        simp [hx, hy, List.filter_cons]
      · by_cases hy : key y = k <;> simp [hx, hy, List.filter_cons]

theorem filter_sortAsc {K : Type} [LinearOrder K] (key : String → K) (k : K)
    (l : List String) :
    (sortAsc key l).filter (fun y => decide (key y = k)) =
      l.filter (fun y => decide (key y = k)) := by
  induction l with
  | nil => rfl
  | cons x xs ih =>
    simp only [sortAsc]
    rw [filter_insertByKey, ih, List.filter_cons]
    by_cases h : key x = k <;> simp [h]

theorem sorted_insertByKey {K : Type} [LinearOrder K] (key : String → K) (x : String)
    (l : List String) (h : l.Sorted (fun a b => key a ≤ key b)) :
    (insertByKey key x l).Sorted (fun a b => key a ≤ key b) := by
  induction l with
  | nil => simp [insertByKey]
  | cons y ys ih =>
    rcases List.sorted_cons.mp h with ⟨hy, hys⟩
    simp only [insertByKey]
    split
    case isTrue hle =>
      refine List.sorted_cons.mpr ⟨?_, h⟩
      intro z hz
      rcases List.mem_cons.mp hz with rfl | hz
      · exact hle
      · exact le_trans hle (hy z hz)
    case isFalse hle =>
      have hlt : key y < key x := lt_of_not_le hle
      refine List.sorted_cons.mpr ⟨?_, ih hys⟩
      intro z hz
      have hz2 : z = x ∨ z ∈ ys := by
        simpa using (insertByKey_perm key x ys).mem_iff.mp hz
      rcases hz2 with rfl | hz2
      · exact le_of_lt hlt
      · exact hy z hz2

theorem sorted_sortAsc {K : Type} [LinearOrder K] (key : String → K) (l : List String) :
    (sortAsc key l).Sorted (fun a b => key a ≤ key b) := by
  induction l with
  | nil => simp [sortAsc]
  | cons x xs ih => exact sorted_insertByKey key x _ ih

/-- Two sorted lists that are permutations of each other and whose keys are
pairwise distinct are equal. -/
theorem sorted_eq_of_perm_of_distinct {K : Type} [LinearOrder K] (key : String → K)
    (l1 l2 : List String) (hp : l1.Perm l2)
    (hs1 : l1.Sorted (fun a b => key a ≤ key b))
    (hs2 : l2.Sorted (fun a b => key a ≤ key b))
    (hd : l1.Pairwise (fun a b => key a ≠ key b)) : l1 = l2 := by
  induction l1 generalizing l2 with
  | nil => exact (hp.symm.eq_nil).symm
  | cons a t1 ih =>
    cases l2 with
    | nil => exact absurd hp.eq_nil (by simp)
    | cons b t2 =>
      have hb1 : b ∈ a :: t1 := hp.mem_iff.mpr (List.mem_cons_self b t2)
      have ha2 : a ∈ b :: t2 := hp.mem_iff.mp (List.mem_cons_self a t1)
      have hab : key a = key b := by
        apply le_antisymm
        · rcases List.mem_cons.mp hb1 with rfl | hmem
          · exact le_refl _
          · exact (List.sorted_cons.mp hs1).1 b hmem
        · rcases List.mem_cons.mp ha2 with heq | hmem
          · exact le_of_eq (congrArg key heq).symm
          · exact (List.sorted_cons.mp hs2).1 a hmem
      have hba : b = a := by
        rcases List.mem_cons.mp hb1 with rfl | hmem
        · rfl
        · exact absurd hab ((List.pairwise_cons.mp hd).1 b hmem)
      subst hba
      have ht : t1 = t2 :=
        ih t2 hp.cons_inv (List.sorted_cons.mp hs1).2 (List.sorted_cons.mp hs2).2
          (List.pairwise_cons.mp hd).2
      rw [ht]

/-! ### Claims about the sorting step -/

/-- C7: For every sort key and reverse setting the sorting step is stable:
files whose key values compare equal retain their relative enumeration
order (the key-`k` sublist of the output equals that of the input).  The
further conjuncts show that `_sort_files` is exactly `sortByKey` at each
of the five selectors, so the generic statement covers them all. -/
theorem sorting_step_stable (meta : String → FileMeta) (rv : Bool) (files : List String) :
    (∀ (K : Type) [LinearOrder K] (key : String → K) (k : K),
      (sortByKey key rv files).filter (fun f => decide (key f = k)) =
        files.filter (fun f => decide (key f = k))) ∧
    sortFiles meta "ctime" rv files = sortByKey (fun f => (meta f).ctime) rv files ∧
    sortFiles meta "mtime" rv files = sortByKey (fun f => (meta f).mtime) rv files ∧
    sortFiles meta "name" rv files = sortByKey (fun f => f.toList) rv files ∧
    sortFiles meta "size" rv files = sortByKey (fun f => (meta f).size) rv files ∧
    sortFiles meta "type" rv files = sortByKey (fun f => (fileExt f).toList) rv files := by
  refine ⟨?_, ?_, ?_, ?_, ?_, ?_⟩
  · intro K instK key k
    unfold sortByKey
    split
    · rw [List.filter_reverse, filter_sortAsc, List.filter_reverse, List.reverse_reverse]
    · exact filter_sortAsc key k files
  · simp [sortFiles]
  · simp only [sortFiles]; rw [if_neg (by decide)]; simp
  · simp only [sortFiles]; rw [if_neg (by decide), if_neg (by decide)]; simp
  · simp only [sortFiles]
    rw [if_neg (by decide), if_neg (by decide), if_neg (by decide)]; simp
  · simp only [sortFiles]
    rw [if_neg (by decide), if_neg (by decide), if_neg (by decide), if_neg (by decide)]
    simp

/-- C8 counterexample: with the extension key, the two files `"a.txt"` and
`"b.txt"` have equal keys, so `reverse=True` (which keeps ties in their
original order, as Python's stable sort does) is not the exact reversal
of the ascending order. -/
theorem sort_reverse_counterexample :
    sortFiles (fun _ => ⟨0, 0, 0⟩) "type" true ["a.txt", "b.txt"] ≠
      (sortFiles (fun _ => ⟨0, 0, 0⟩) "type" false ["a.txt", "b.txt"]).reverse := by
  decide

/-- C8 amended: with a selected key whose values are pairwise distinct on
the file list, `reverse=True` produces the exact reversal of the
ascending order (in general it sorts descending with ties keeping their
original order); with no key selected (`sorting=None`, dispatched as the
string `"None"`) the reverse flag has no effect; and the name-key example
of the claim holds as stated. -/
theorem sort_reverse_amended {K : Type} [LinearOrder K] (key : String → K)
    (meta : String → FileMeta) (files : List String)
    (hdist : files.Pairwise (fun a b => key a ≠ key b)) :
    sortByKey key true files = (sortByKey key false files).reverse ∧
    sortFiles meta "None" true files = files ∧
    sortFiles meta "None" false files = files ∧
    sortFiles meta "name" true ["b.txt", "a.txt", "c.txt"] =
      ["c.txt", "b.txt", "a.txt"] := by
  have hnone : ∀ rv : Bool, sortFiles meta "None" rv files = files := by
    intro rv
    simp only [sortFiles]
    rw [if_neg (by decide), if_neg (by decide), if_neg (by decide), if_neg (by decide),
      if_neg (by decide)]
  refine ⟨?_, hnone true, hnone false, ?_⟩
  · show (sortAsc key files.reverse).reverse = (sortAsc key files).reverse
    congr 1
    apply sorted_eq_of_perm_of_distinct key
    · exact (sortAsc_perm key files.reverse).trans
        ((List.reverse_perm files).trans (sortAsc_perm key files).symm)
    · exact sorted_sortAsc key files.reverse
    · exact sorted_sortAsc key files
    · have hsymm : ∀ {x y : String}, key x ≠ key y → key y ≠ key x :=
        fun h heq => h heq.symm
      exact ((sortAsc_perm key files.reverse).pairwise_iff hsymm).mpr
        (((List.reverse_perm files).pairwise_iff hsymm).mpr hdist)
  · simp only [sortFiles]
    rw [if_neg (by decide), if_neg (by decide), if_pos trivial]
    decide

/-- Witness for `sort_reverse_amended` at the name key on the claim's own
example list, whose keys are pairwise distinct. -/
theorem sort_reverse_amended_witness :
    (["b.txt", "a.txt", "c.txt"] : List String).Pairwise
      (fun a b => a.toList ≠ b.toList) ∧
    sortByKey (fun f : String => f.toList) true ["b.txt", "a.txt", "c.txt"] =
      (sortByKey (fun f : String => f.toList) false ["b.txt", "a.txt", "c.txt"]).reverse :=
  ⟨by decide,
    (sort_reverse_amended (fun f : String => f.toList) (fun _ => ⟨0, 0, 0⟩)
      ["b.txt", "a.txt", "c.txt"] (by decide)).1⟩

/-- C9: the file set built at construction never contains the running
script's own name (directory listings have no duplicate entries), and
the sorting step, being a permutation, never reintroduces it. -/
theorem script_name_never_in_fileset (entries : List String) (h : entries.Nodup) :
    SCRIPT_NAME ∉ initFiles entries ∧
    ∀ (meta : String → FileMeta) (sorting : String) (rv : Bool),
      SCRIPT_NAME ∉ sortFiles meta sorting rv (initFiles entries) := by
  have h1 : SCRIPT_NAME ∉ initFiles entries := by
    unfold initFiles
    split
    · exact h.not_mem_erase
    · assumption
  exact ⟨h1, fun meta sorting rv hmem =>
    h1 ((sortFiles_perm meta sorting rv _).mem_iff.mp hmem)⟩

/-- Witness for `script_name_never_in_fileset` on a concrete listing that
contains the script's file name. -/
theorem script_name_never_in_fileset_witness :
    (["files_mover.py", "a.txt", "b.txt"] : List String).Nodup ∧
    SCRIPT_NAME ∉ initFiles ["files_mover.py", "a.txt", "b.txt"] :=
  ⟨by decide,
    (script_name_never_in_fileset ["files_mover.py", "a.txt", "b.txt"] (by decide)).1⟩

/-! ### Arithmetic facts about the folder count -/

theorem le_mul_maxFolderNum (n num : Nat) (hnum : 0 < num) :
    n ≤ maxFolderNum n num * num := by
  by_cases hr : n % num = 0
  · simp only [maxFolderNum, hr, ne_eq, not_true_eq_false, if_false, Nat.add_zero]
    exact le_of_eq (Nat.div_mul_cancel (Nat.dvd_of_mod_eq_zero hr)).symm
  · have h1 : num * (n / num) + n % num = n := Nat.div_add_mod n num
    have h2 : n % num < num := Nat.mod_lt n hnum
    calc n = num * (n / num) + n % num := h1.symm
      _ ≤ num * (n / num) + num := Nat.add_le_add_left (le_of_lt h2) _
      _ = (n / num + 1) * num := by ring
      _ = maxFolderNum n num * num := by simp [maxFolderNum, hr]

theorem batch_full (n num i : Nat) (hnum : 0 < num) (h : i + 1 < maxFolderNum n num) :
    i * num + num ≤ n := by
  by_cases hr : n % num = 0
  · have hk : maxFolderNum n num = n / num := by simp [maxFolderNum, hr]
    rw [hk] at h
    have heq : n / num * num = n := Nat.div_mul_cancel (Nat.dvd_of_mod_eq_zero hr)
    calc i * num + num = (i + 1) * num := by ring
      _ ≤ n / num * num := Nat.mul_le_mul_right num (by omega)
      _ = n := heq
  · have hk : maxFolderNum n num = n / num + 1 := by simp [maxFolderNum, hr]
    rw [hk] at h
    calc i * num + num = (i + 1) * num := by ring
      _ ≤ n / num * num := Nat.mul_le_mul_right num (by omega)
      _ ≤ n := Nat.div_mul_le_self n num

theorem pred_mul_lt (n num : Nat) (hnum : 0 < num) (hk : 0 < maxFolderNum n num) :
    (maxFolderNum n num - 1) * num < n := by
  by_cases hr : n % num = 0
  · have hq : maxFolderNum n num = n / num := by simp [maxFolderNum, hr]
    have hqpos : 0 < n / num := by rw [← hq]; exact hk
    have heq : n / num * num = n := Nat.div_mul_cancel (Nat.dvd_of_mod_eq_zero hr)
    obtain ⟨q, hq'⟩ : ∃ q, n / num = q + 1 :=
      ⟨n / num - 1, (Nat.succ_pred_eq_of_pos hqpos).symm⟩
    rw [hq, hq', Nat.add_sub_cancel]
    have hn : n = q * num + num := by rw [← heq, hq']; ring
    rw [hn]
    exact Nat.lt_add_of_pos_right hnum
  · have hq : maxFolderNum n num = n / num + 1 := by simp [maxFolderNum, hr]
    rw [hq, Nat.add_sub_cancel]
    have h1 : num * (n / num) + n % num = n := Nat.div_add_mod n num
    have h2 : 0 < n % num := Nat.pos_of_ne_zero hr
    calc n / num * num = num * (n / num) := by ring
      _ < num * (n / num) + n % num := Nat.lt_add_of_pos_right h2
      _ = n := h1

theorem last_batch_len (n num : Nat) (hnum : 0 < num) (hk : 0 < maxFolderNum n num) :
    n - (maxFolderNum n num - 1) * num = if n % num = 0 then num else n % num := by
  by_cases hr : n % num = 0
  · have hq : maxFolderNum n num = n / num := by simp [maxFolderNum, hr]
    have hqpos : 0 < n / num := by rw [← hq]; exact hk
    have heq : n / num * num = n := Nat.div_mul_cancel (Nat.dvd_of_mod_eq_zero hr)
    obtain ⟨q, hq'⟩ : ∃ q, n / num = q + 1 :=
      ⟨n / num - 1, (Nat.succ_pred_eq_of_pos hqpos).symm⟩
    rw [if_pos hr, hq, hq', Nat.add_sub_cancel]
    have hn : n = q * num + num := by rw [← heq, hq']; ring
    rw [hn]
    exact Nat.add_sub_cancel_left (q * num) num
  · have hq : maxFolderNum n num = n / num + 1 := by simp [maxFolderNum, hr]
    rw [if_neg hr, hq, Nat.add_sub_cancel]
    have h1 : n = n / num * num + n % num := by
      conv_lhs => rw [← Nat.div_add_mod n num]
      ring
    nth_rewrite 1 [h1]
    exact Nat.add_sub_cancel_left (n / num * num) (n % num)

theorem maxFolderNum_cast_ceil (n m : Nat) (hm : 0 < m) :
    ((maxFolderNum n m : Nat) : Int) = ⌈(n : ℚ) / (m : ℚ)⌉ := by
  have hmq : (0 : ℚ) < (m : ℚ) := by exact_mod_cast hm
  symm
  rw [Int.ceil_eq_iff]
  constructor
  · rw [lt_div_iff₀ hmq]
    rcases Nat.eq_zero_or_pos (maxFolderNum n m) with hk0 | hkpos
    · rw [hk0]
      push_cast
      nlinarith [Nat.cast_nonneg (α := ℚ) n]
    · have hlt : (maxFolderNum n m - 1) * m < n := pred_mul_lt n m hm hkpos
      have hc : (((maxFolderNum n m : Nat) : Int) : ℚ) - 1 =
          ((maxFolderNum n m - 1 : Nat) : ℚ) := by
        rw [Nat.cast_sub hkpos]
        push_cast
        ring
      rw [hc]
      exact_mod_cast hlt
  · rw [div_le_iff₀ hmq]
    have hle : n ≤ maxFolderNum n m * m := le_mul_maxFolderNum n m hm
    push_cast
    exact_mod_cast hle

/-! ### Structure of the move loop -/

theorem rootAfter_nil (nm : String) (startNum : Int) (num : Nat) (sf : List String)
    (root : List String) : rootAfter nm startNum num sf root [] = root := rfl

theorem rootAfter_cons (nm : String) (startNum : Int) (num : Nat) (sf : List String)
    (root : List String) (i : Nat) (rest : List Nat) :
    rootAfter nm startNum num sf root (i :: rest) =
      rootAfter nm startNum num sf
        (folderName nm startNum i ::
          root.filter (fun e => decide (e ∉ batchAt num sf i))) rest := rfl

theorem runBatches_ok (nm : String) (startNum : Int) (num : Nat) (sf : List String) :
    ∀ (idxs : List Nat) (root : List String) (folders : List (String × List String))
      (root2 : List String),
      runBatches nm startNum num sf idxs root = .ok folders root2 →
      folders = idxs.map (fun i => (folderName nm startNum i, batchAt num sf i)) ∧
        root2 = rootAfter nm startNum num sf root idxs := by
  intro idxs
  induction idxs with
  | nil =>
    intro root folders root2 h
    simp only [runBatches, MoveResult.ok.injEq] at h
    exact ⟨h.1.symm, h.2.symm⟩
  | cons i rest ih =>
    intro root folders root2 h
    simp only [runBatches] at h
    split at h
    · exact MoveResult.noConfusion h
    · rcases hrec : runBatches nm startNum num sf rest
          (folderName nm startNum i ::
            root.filter (fun e => decide (e ∉ batchAt num sf i))) with
        ⟨f2, r2⟩ | ⟨f2, r2⟩ | ⟨f2, r2⟩ <;> rw [hrec] at h
      · simp only [MoveResult.ok.injEq] at h
        obtain ⟨ihf, ihr⟩ := ih _ _ _ hrec
        refine ⟨?_, ?_⟩
        · rw [← h.1, ihf, List.map_cons]
        · rw [← h.2, ihr, rootAfter_cons]
      · exact MoveResult.noConfusion h
      · exact MoveResult.noConfusion h

theorem runBatches_conflict (nm : String) (startNum : Int) (num : Nat) (sf : List String) :
    ∀ (idxs : List Nat) (root : List String) (folders : List (String × List String))
      (root2 : List String),
      runBatches nm startNum num sf idxs root = .conflictError folders root2 →
      ∃ t, ∃ ht : t < idxs.length,
        folderName nm startNum (idxs.get ⟨t, ht⟩) ∈ root2 ∧
        folders = (idxs.take t).map
          (fun i => (folderName nm startNum i, batchAt num sf i)) ∧
        root2 = rootAfter nm startNum num sf root (idxs.take t) := by
  intro idxs
  induction idxs with
  | nil =>
    intro root folders root2 h
    simp [runBatches] at h
  | cons i rest ih =>
    intro root folders root2 h
    simp only [runBatches] at h
    split at h
    case isTrue hmem =>
      simp only [MoveResult.conflictError.injEq] at h
      refine ⟨0, by simp, ?_, ?_, ?_⟩
      · rw [← h.2]
        exact hmem
      · rw [← h.1]
        simp
      · rw [← h.2]
        simp [rootAfter]
    case isFalse hmem =>
      rcases hrec : runBatches nm startNum num sf rest
          (folderName nm startNum i ::
            root.filter (fun e => decide (e ∉ batchAt num sf i))) with
        ⟨f2, r2⟩ | ⟨f2, r2⟩ | ⟨f2, r2⟩ <;> rw [hrec] at h
      · exact MoveResult.noConfusion h
      · simp only [MoveResult.conflictError.injEq] at h
        obtain ⟨t, ht, hmem2, hf, hr⟩ := ih _ _ _ hrec
        refine ⟨t + 1, Nat.succ_lt_succ ht, ?_, ?_, ?_⟩
        · rw [← h.2]
          exact hmem2
        · rw [← h.1, hf, List.take_succ_cons, List.map_cons]
        · rw [← h.2, hr, List.take_succ_cons, rootAfter_cons]
      · exact MoveResult.noConfusion h

theorem mem_rootAfter (nm : String) (startNum : Int) (num : Nat) (sf : List String) :
    ∀ (processed : List Nat) (root : List String) (x : String),
      x ∈ rootAfter nm startNum num sf root processed →
      (∃ i ∈ processed, x = folderName nm startNum i) ∨
        (x ∈ root ∧ ∀ i ∈ processed, x ∉ batchAt num sf i) := by
  intro processed
  induction processed with
  | nil =>
    intro root x hx
    exact Or.inr ⟨hx, by simp⟩
  | cons i rest ih =>
    intro root x hx
    rw [rootAfter_cons] at hx
    rcases ih _ x hx with ⟨j, hj, hxj⟩ | ⟨hxr, hnb⟩
    · exact Or.inl ⟨j, List.mem_cons_of_mem i hj, hxj⟩
    · rcases List.mem_cons.mp hxr with heq | hmem
      · exact Or.inl ⟨i, List.mem_cons_self i rest, heq⟩
      · have hfil := List.mem_filter.mp hmem
        refine Or.inr ⟨hfil.1, ?_⟩
        intro j hj
        rcases List.mem_cons.mp hj with rfl | hj2
        · simpa using hfil.2
        · exact hnb j hj2

theorem mem_rootAfter_of_not_moved (nm : String) (startNum : Int) (num : Nat)
    (sf : List String) :
    ∀ (processed : List Nat) (root : List String) (x : String),
      x ∈ root → (∀ i ∈ processed, x ∉ batchAt num sf i) →
      x ∈ rootAfter nm startNum num sf root processed := by
  intro processed
  induction processed with
  | nil =>
    intro root x hx _
    exact hx
  | cons i rest ih =>
    intro root x hx h
    rw [rootAfter_cons]
    apply ih
    · refine List.mem_cons_of_mem _ (List.mem_filter.mpr ⟨hx, ?_⟩)
      simpa using h i (List.mem_cons_self i rest)
    · intro j hj
      exact h j (List.mem_cons_of_mem i hj)

theorem flatten_batches (num : Nat) (sf : List String) (t : Nat) :
    ((List.range t).map (batchAt num sf)).flatten = sf.take (t * num) := by
  induction t with
  | zero => simp
  | succ t ih =>
    rw [List.range_succ, List.map_append, List.flatten_append, ih]
    simp only [List.map_cons, List.map_nil, List.flatten_cons, List.flatten_nil,
      List.append_nil]
    rw [batchAt, ← List.take_add, Nat.succ_mul]

theorem batchAt_subset (num : Nat) (sf : List String) (i : Nat) :
    ∀ x, x ∈ batchAt num sf i → x ∈ sf := by
  intro x hx
  exact List.drop_subset _ _ (List.take_subset _ _ hx)

theorem batchAt_subset_take (num : Nat) (sf : List String) (j : Nat) :
    ∀ x, x ∈ batchAt num sf j → x ∈ sf.take ((j + 1) * num) := by
  intro x hx
  have hsplit : sf.take ((j + 1) * num) =
      sf.take (j * num) ++ (sf.drop (j * num)).take num := by
    rw [Nat.succ_mul, List.take_add]
  rw [hsplit]
  exact List.mem_append_right _ hx

theorem mem_take_of_le (sf : List String) (m1 m2 : Nat) (hle : m1 ≤ m2) :
    ∀ x, x ∈ sf.take m1 → x ∈ sf.take m2 := by
  intro x hx
  have : sf.take m1 = (sf.take m2).take m1 := by
    rw [List.take_take, Nat.min_eq_left hle]
  rw [this] at hx
  exact List.take_subset _ _ hx

/-- Two distinct batches of a duplicate-free file list are disjoint. -/
theorem batch_disjoint_earlier (num : Nat) (sf : List String) (hnd : sf.Nodup)
    (j t : Nat) (hjt : j < t) :
    ∀ f, f ∈ batchAt num sf j → f ∈ batchAt num sf t → False := by
  intro f hfj hft
  have h1 : f ∈ sf.take (t * num) :=
    mem_take_of_le sf ((j + 1) * num) (t * num)
      (Nat.mul_le_mul_right num hjt) f (batchAt_subset_take num sf j f hfj)
  have h2 : f ∈ sf.drop (t * num) := List.take_subset _ _ hft
  exact (List.disjoint_take_drop hnd (le_refl (t * num))) h1 h2

theorem move_ok_eq (meta : String → FileMeta) (sorting : String) (rv : Bool)
    (nm : String) (startNum : Int) (num : Nat) (files root : List String)
    (folders : List (String × List String)) (root2 : List String)
    (h : move meta sorting rv nm startNum num files root = .ok folders root2) :
    files ≠ [] ∧
    folders = (List.range (maxFolderNum files.length num)).map
      (fun i => (folderName nm startNum i,
        batchAt num (sortFiles meta sorting rv files) i)) ∧
    root2 = rootAfter nm startNum num (sortFiles meta sorting rv files) root
      (List.range (maxFolderNum files.length num)) := by
  unfold move at h
  split at h
  · exact MoveResult.noConfusion h
  · next hne =>
    have hne2 : files ≠ [] := by simpa [List.isEmpty_iff] using hne
    obtain ⟨h1, h2⟩ := runBatches_ok nm startNum num _ _ _ _ _ h
    exact ⟨hne2, h1, h2⟩

/-! ### Claims about the move operation -/

/-- C1: for a non-empty file set and positive batch size, a successful
move partitions the file set: the concatenation of the destination
folders' contents is a permutation of the original file set (every file
ends up in exactly one destination folder), the number of folders is the
computed folder count, every folder but the last holds exactly `num`
files, the last holds `n % num` when that is nonzero and `num`
otherwise, and (provided no computed folder name collides with a file
name, which in the flat entry-name model would make the created folder
indistinguishable from a file) no file is left among the work folder's
entries. -/
theorem move_partition (meta : String → FileMeta) (sorting : String) (rv : Bool)
    (nm : String) (startNum : Int) (num : Nat) (files root : List String)
    (folders : List (String × List String)) (root2 : List String)
    (hnum : 0 < num)
    (h : move meta sorting rv nm startNum num files root = .ok folders root2) :
    folders.length = maxFolderNum files.length num ∧
    ((folders.map Prod.snd).flatten).Perm files ∧
    (∀ i, ∀ hi : i < folders.length,
      ((folders.get ⟨i, hi⟩).2).length =
        if i + 1 < folders.length then num
        else if files.length % num = 0 then num else files.length % num) ∧
    ((∀ i, i < maxFolderNum files.length num →
        folderName nm startNum i ∉ files) →
      ∀ f ∈ files, f ∉ root2) := by
  obtain ⟨hne, hf, hr⟩ :=
    move_ok_eq meta sorting rv nm startNum num files root folders root2 h
  have hsfperm := sortFiles_perm meta sorting rv files
  have hsflen : (sortFiles meta sorting rv files).length = files.length :=
    hsfperm.length_eq
  have hlen : folders.length = maxFolderNum files.length num := by
    rw [hf]; simp
  have hnle : files.length ≤ maxFolderNum files.length num * num :=
    le_mul_maxFolderNum files.length num hnum
  have htake : (sortFiles meta sorting rv files).take
      (maxFolderNum files.length num * num) = sortFiles meta sorting rv files :=
    List.take_of_length_le (by rw [hsflen]; exact hnle)
  have hflat : (folders.map Prod.snd).flatten = sortFiles meta sorting rv files := by
    rw [hf, List.map_map]
    have hcomp : (Prod.snd ∘ fun i =>
        (folderName nm startNum i, batchAt num (sortFiles meta sorting rv files) i)) =
        batchAt num (sortFiles meta sorting rv files) := rfl
    rw [hcomp, flatten_batches, htake]
  refine ⟨hlen, ?_, ?_, ?_⟩
  · rw [hflat]; exact hsfperm
  · intro i hi
    have hik : i < maxFolderNum files.length num := by rw [← hlen]; exact hi
    have hget : (folders.get ⟨i, hi⟩).2 =
        batchAt num (sortFiles meta sorting rv files) i := by
      simp only [hf, List.get_eq_getElem, List.getElem_map, List.getElem_range]
    rw [hget, hlen, batchAt, List.length_take, List.length_drop, hsflen]
    by_cases hcase : i + 1 < maxFolderNum files.length num
    · rw [if_pos hcase]
      have h2 : i * num + num ≤ files.length := batch_full files.length num i hnum hcase
      generalize i * num = a at h2 ⊢
      omega
    · rw [if_neg hcase]
      have hkpos : 0 < maxFolderNum files.length num := by omega
      have hieq : i = maxFolderNum files.length num - 1 := by omega
      rw [hieq, last_batch_len files.length num hnum hkpos]
      have hmlt : files.length % num < num := Nat.mod_lt files.length hnum
      by_cases hmod : files.length % num = 0
      · simp [hmod]
      · simp only [hmod, if_false]
        omega
  · intro hnames f hfmem hcontra
    rw [hr] at hcontra
    rcases mem_rootAfter nm startNum num _ _ _ _ hcontra with ⟨i, hi, hfeq⟩ | ⟨hfr, hnb⟩
    · exact hnames i (List.mem_range.mp hi) (by rw [← hfeq]; exact hfmem)
    · have hfsf : f ∈ sortFiles meta sorting rv files := hsfperm.mem_iff.mpr hfmem
      have hfflat : f ∈ ((List.range (maxFolderNum files.length num)).map
          (batchAt num (sortFiles meta sorting rv files))).flatten := by
        rw [flatten_batches, htake]
        exact hfsf
      rcases List.mem_flatten.mp hfflat with ⟨b, hb, hfb⟩
      rcases List.mem_map.mp hb with ⟨i, hik, rfl⟩
      exact hnb i hik hfb

/-- C4: with an empty file set, `move` raises `ValueError("No files to
move!")` (the `EmptyInputError` of the spec) immediately: no destination
folder has been created (the carried folder list is empty) and the work
folder's entries are unchanged. -/
theorem move_empty_fileset (meta : String → FileMeta) (sorting : String) (rv : Bool)
    (nm : String) (startNum : Int) (num : Nat) (root : List String) :
    move meta sorting rv nm startNum num [] root = .emptyInputError [] root := rfl

/-- C5: in a successful move the destination folder of batch `i` is named
`start_folder_name` followed by the decimal rendering of
`start_folder_num + i`; in particular prefix `"folder-"` with start
number `3` names batch 0 `"folder-3"` and batch 1 `"folder-4"`. -/
theorem move_folder_names (meta : String → FileMeta) (sorting : String) (rv : Bool)
    (nm : String) (startNum : Int) (num : Nat) (files root : List String)
    (folders : List (String × List String)) (root2 : List String)
    (h : move meta sorting rv nm startNum num files root = .ok folders root2) :
    (∀ i, ∀ hi : i < folders.length,
      (folders.get ⟨i, hi⟩).1 = nm ++ toString (startNum + (i : Int))) ∧
    folderName "folder-" 3 0 = "folder-3" ∧
    folderName "folder-" 3 1 = "folder-4" := by
  obtain ⟨hne, hf, hr⟩ :=
    move_ok_eq meta sorting rv nm startNum num files root folders root2 h
  refine ⟨?_, by decide, by decide⟩
  intro i hi
  simp only [hf, List.get_eq_getElem, List.getElem_map, List.getElem_range]
  rfl

/-- C3: if `move` stops with `ValueError("Folder already exists!")` (the
`ConflictError` of the spec), then there is a conflicting batch index
`t`: its computed folder name is among the work folder's entries at that
moment, exactly the batches before `t` have been created and filled (no
rollback: their files are gone from the work folder), the folder list
contains no folder for batch `t`, and every file of batch `t` is still
among the work folder's entries. -/
theorem move_conflict (meta : String → FileMeta) (sorting : String) (rv : Bool)
    (nm : String) (startNum : Int) (num : Nat) (files root : List String)
    (folders : List (String × List String)) (root2 : List String)
    (hnum : 0 < num) (hnd : files.Nodup)
    (hsub : ∀ f ∈ files, f ∈ root)
    (hnames : ∀ i, i < maxFolderNum files.length num →
      folderName nm startNum i ∉ files)
    (h : move meta sorting rv nm startNum num files root = .conflictError folders root2) :
    ∃ t, t < maxFolderNum files.length num ∧
      folderName nm startNum t ∈ root2 ∧
      folders = (List.range t).map (fun j => (folderName nm startNum j,
        batchAt num (sortFiles meta sorting rv files) j)) ∧
      (∀ f ∈ batchAt num (sortFiles meta sorting rv files) t, f ∈ root2) ∧
      (∀ j, j < t → ∀ f ∈ batchAt num (sortFiles meta sorting rv files) j,
        f ∉ root2) := by
  unfold move at h
  split at h
  · exact MoveResult.noConfusion h
  · next hne =>
    have hsfperm := sortFiles_perm meta sorting rv files
    have hsfnd : (sortFiles meta sorting rv files).Nodup := hsfperm.nodup_iff.mpr hnd
    obtain ⟨t, ht, hmem, hfold, hroot⟩ := runBatches_conflict nm startNum num _ _ _ _ _ h
    have htk : t < maxFolderNum files.length num := by simpa using ht
    have hget : (List.range (maxFolderNum files.length num)).get ⟨t, ht⟩ = t := by
      simp
    have htake : (List.range (maxFolderNum files.length num)).take t = List.range t := by
      rw [List.take_range]
      exact congrArg List.range (Nat.min_eq_left (Nat.le_of_lt htk))
    rw [hget] at hmem
    rw [htake] at hfold hroot
    refine ⟨t, htk, hmem, hfold, ?_, ?_⟩
    · intro f hf
      rw [hroot]
      apply mem_rootAfter_of_not_moved
      · exact hsub f (hsfperm.mem_iff.mp (batchAt_subset num _ t f hf))
      · intro j hj hfj
        exact batch_disjoint_earlier num _ hsfnd j t (List.mem_range.mp hj) f hfj hf
    · intro j hjt f hfj hcontra
      rw [hroot] at hcontra
      rcases mem_rootAfter nm startNum num _ _ _ _ hcontra with ⟨i, hi, hfeq⟩ | ⟨hfr, hnb⟩
      · have hik : i < maxFolderNum files.length num :=
          lt_trans (List.mem_range.mp hi) htk
        have hffiles : f ∈ files :=
          hsfperm.mem_iff.mp (batchAt_subset num _ j f hfj)
        exact hnames i hik (by rw [← hfeq]; exact hffiles)
      · exact hnb j (List.mem_range.mpr hjt) hfj

/-! ### Claims about construction and `info` -/

/-- C2: for a positive batch size the folder count computed at
construction equals the ceiling of `files.length / num`. -/
theorem init_folder_count (entries : List String) (wf : String) (num : Int)
    (nm : String) (sn : Int) (sel : String) (rv : Bool) (s : Separator)
    (hnum : 0 < num)
    (h : initSeparator entries wf num nm sn sel rv = .ok s) :
    s.maxFolderNum = ⌈(s.files.length : ℚ) / (num : ℚ)⌉ := by
  unfold initSeparator at h
  rw [if_neg (by omega)] at h
  simp only [Except.ok.injEq] at h
  subst h
  show Int.fdiv (initFiles entries).length num +
      (if Int.fmod (initFiles entries).length num ≠ 0 then 1 else 0) =
    ⌈((initFiles entries).length : ℚ) / (num : ℚ)⌉
  obtain ⟨m, rfl⟩ : ∃ m : Nat, num = (m : Int) :=
    ⟨num.toNat, (Int.toNat_of_nonneg (le_of_lt hnum)).symm⟩
  have hm : 0 < m := by exact_mod_cast hnum
  rw [Int.fdiv_eq_ediv _ (by exact_mod_cast Nat.zero_le m),
    Int.fmod_eq_emod _ (by exact_mod_cast Nat.zero_le m),
    ← Int.ofNat_ediv, ← Int.ofNat_emod, Int.cast_natCast,
    ← maxFolderNum_cast_ceil _ m hm]
  by_cases hr : (initFiles entries).length % m = 0
  · simp [maxFolderNum, hr]
  · have hrc : ((((initFiles entries).length % m : Nat)) : Int) ≠ 0 := by
      exact_mod_cast hr
    simp only [maxFolderNum, hr, hrc, ne_eq, not_false_eq_true, if_true]
    push_cast
    ring

/-- Witness for `init_folder_count`: three files, batch size two, folder
count two. -/
theorem init_folder_count_witness :
    ((0 : Int) < 2 ∧
      initSeparator ["a", "b", "c"] "w" 2 "folder-" 1 "None" false =
        .ok ⟨"w", ["a", "b", "c"], 2, "folder-", 1, 2, "None", false⟩) ∧
    (⟨"w", ["a", "b", "c"], 2, "folder-", 1, 2, "None", false⟩ :
        Separator).maxFolderNum =
      ⌈((⟨"w", ["a", "b", "c"], 2, "folder-", 1, 2, "None", false⟩ :
        Separator).files.length : ℚ) / ((2 : Int) : ℚ)⌉ :=
  ⟨⟨by decide, by rfl⟩,
    init_folder_count ["a", "b", "c"] "w" 2 "folder-" 1 "None" false _
      (by decide) (by rfl)⟩

/-- C6 counterexample: constructing with the non-positive batch size `-3`
and the invalid sort selector `"bogus"` succeeds (no error of any kind is
raised), refuting the claim that such configurations fail with
`ConfigurationError`; the instance even carries the meaningless folder
count `-1`. -/
theorem config_validation_counterexample :
    initSeparator ["a", "b", "c"] "w" (-3) "folder-" 1 "bogus" false =
      .ok ⟨"w", ["a", "b", "c"], -3, "folder-", 1, -1, "bogus", false⟩ := rfl

/-- C6 amended: construction performs no validation at all.  Batch size
`0` fails with `ZeroDivisionError` (not a `ConfigurationError`) at the
folder-count computation, any negative batch size is silently accepted,
and an invalid sort-key selector string is silently accepted, making the
sorting step a no-op. -/
theorem init_no_validation (entries : List String) (wf nm : String) (sn : Int)
    (sel : String) (rv : Bool)
    (hsel : sel ∉ (["ctime", "mtime", "name", "size", "type"] : List String)) :
    initSeparator entries wf 0 nm sn sel rv = .error .zeroDivisionError ∧
    (∀ num : Int, num < 0 → ∃ s, initSeparator entries wf num nm sn sel rv = .ok s) ∧
    (∀ (meta : String → FileMeta) (rv2 : Bool) (files : List String),
      sortFiles meta sel rv2 files = files) := by
  refine ⟨by simp [initSeparator], ?_, ?_⟩
  · intro num hneg
    refine ⟨⟨wf, initFiles entries, num, nm, sn,
      Int.fdiv (initFiles entries).length num +
        (if Int.fmod (initFiles entries).length num ≠ 0 then 1 else 0),
      sel, rv⟩, ?_⟩
    unfold initSeparator
    rw [if_neg (by omega)]
  intro meta rv2 files
  simp only [List.mem_cons, List.not_mem_nil, or_false, not_or] at hsel
  obtain ⟨h1, h2, h3, h4, h5⟩ := hsel
  simp [sortFiles, h1, h2, h3, h4, h5]

/-- Witness for `init_no_validation` at the selector `"bogus"`. -/
theorem init_no_validation_witness :
    (("bogus" : String) ∉ (["ctime", "mtime", "name", "size", "type"] : List String) ∧
      (-3 : Int) < 0) ∧
    initSeparator ["a"] "w" 0 "folder-" 1 "bogus" false =
      .error .zeroDivisionError ∧
    (∃ s, initSeparator ["a"] "w" (-3) "folder-" 1 "bogus" false = .ok s) :=
  ⟨⟨by decide, by decide⟩,
    (init_no_validation ["a"] "w" "folder-" 1 "bogus" false (by decide)).1,
    (init_no_validation ["a"] "w" "folder-" 1 "bogus" false (by decide)).2.1 (-3)
      (by decide)⟩

/-- C10: when the file set is empty at construction, `info` reports zero
files and zero folders to create, a start folder named
`start_folder_name` followed by `start_folder_num`, and an end folder
named `start_folder_name` followed by `start_folder_num - 1` (one index
before the start folder, belonging to none of the zero batches). -/
theorem info_empty_fileset (entries : List String) (wf : String) (num : Int)
    (nm : String) (sn : Int) (sel : String) (rv : Bool) (s : Separator)
    (hempty : initFiles entries = [])
    (h : initSeparator entries wf num nm sn sel rv = .ok s) :
    s.info = ⟨wf, 0, 0, nm ++ toString sn, nm ++ toString (sn - 1)⟩ := by
  unfold initSeparator at h
  split at h
  · exact Except.noConfusion h
  · simp only [Except.ok.injEq] at h
    subst h
    unfold Separator.info
    simp only [hempty, List.length_nil, Nat.cast_zero, Int.zero_fdiv, Int.zero_fmod,
      ne_eq, not_true_eq_false, if_false, Int.add_zero, Int.zero_add]

/-- Witness for `info_empty_fileset`: the listing holds only the script
itself, so the file set is empty. -/
theorem info_empty_fileset_witness :
    (initFiles ["files_mover.py"] = [] ∧
      initSeparator ["files_mover.py"] "w" 50 "folder-" 1 "None" false =
        .ok ⟨"w", [], 50, "folder-", 1, 0, "None", false⟩) ∧
    (⟨"w", [], 50, "folder-", 1, 0, "None", false⟩ : Separator).info =
      ⟨"w", 0, 0, "folder-1", "folder-0"⟩ :=
  ⟨⟨by rfl, by rfl⟩,
    info_empty_fileset ["files_mover.py"] "w" 50 "folder-" 1 "None" false _
      (by rfl) (by rfl)⟩

/-! ### Witnesses for the move claims -/

/-- Witness for `move_partition` on a concrete successful run: three
files, batch size two, two folders of sizes two and one. -/
theorem move_partition_witness :
    ((0 : Nat) < 2 ∧
      move (fun _ => ⟨0, 0, 0⟩) "None" false "folder-" 1 2 ["a", "b", "c"]
          ["a", "b", "c"] =
        .ok [("folder-1", ["a", "b"]), ("folder-2", ["c"])]
          ["folder-2", "folder-1"]) ∧
    ([("folder-1", ["a", "b"]), ("folder-2", ["c"])] :
        List (String × List String)).length =
      maxFolderNum (["a", "b", "c"] : List String).length 2 :=
  ⟨⟨by decide, by decide⟩,
    (move_partition (fun _ => ⟨0, 0, 0⟩) "None" false "folder-" 1 2 ["a", "b", "c"]
      ["a", "b", "c"] [("folder-1", ["a", "b"]), ("folder-2", ["c"])]
      ["folder-2", "folder-1"] (by decide) (by decide)).1⟩

/-- Witness for `move_folder_names` on a concrete successful run with
prefix `"f-"` and start number `5`. -/
theorem move_folder_names_witness :
    (move (fun _ => ⟨0, 0, 0⟩) "None" false "f-" 5 2 ["x", "y", "z"]
        ["x", "y", "z"] =
      .ok [("f-5", ["x", "y"]), ("f-6", ["z"])] ["f-6", "f-5"]) ∧
    folderName "folder-" 3 0 = "folder-3" ∧
    folderName "folder-" 3 1 = "folder-4" :=
  ⟨by decide,
    (move_folder_names (fun _ => ⟨0, 0, 0⟩) "None" false "f-" 5 2 ["x", "y", "z"]
      ["x", "y", "z"] [("f-5", ["x", "y"]), ("f-6", ["z"])] ["f-6", "f-5"]
      (by decide)).2⟩

/-- Witness for `move_conflict`: an entry named `"folder-2"` already
exists, so batch 1 conflicts after batch 0 was fully processed. -/
theorem move_conflict_witness :
    ((0 : Nat) < 1 ∧ (["a", "b"] : List String).Nodup ∧
      (∀ f ∈ (["a", "b"] : List String),
        f ∈ (["a", "b", "folder-2"] : List String)) ∧
      (∀ i, i < maxFolderNum (["a", "b"] : List String).length 1 →
        folderName "folder-" 1 i ∉ (["a", "b"] : List String)) ∧
      move (fun _ => ⟨0, 0, 0⟩) "None" false "folder-" 1 1 ["a", "b"]
          ["a", "b", "folder-2"] =
        .conflictError [("folder-1", ["a"])] ["folder-1", "b", "folder-2"]) ∧
    ∃ t, t < maxFolderNum (["a", "b"] : List String).length 1 ∧
      folderName "folder-" 1 t ∈ (["folder-1", "b", "folder-2"] : List String) ∧
      [("folder-1", ["a"])] = (List.range t).map (fun j => (folderName "folder-" 1 j,
        batchAt 1 (sortFiles (fun _ => ⟨0, 0, 0⟩) "None" false ["a", "b"]) j)) ∧
      (∀ f ∈ batchAt 1 (sortFiles (fun _ => ⟨0, 0, 0⟩) "None" false ["a", "b"]) t,
        f ∈ (["folder-1", "b", "folder-2"] : List String)) ∧
      (∀ j, j < t →
        ∀ f ∈ batchAt 1 (sortFiles (fun _ => ⟨0, 0, 0⟩) "None" false ["a", "b"]) j,
          f ∉ (["folder-1", "b", "folder-2"] : List String)) :=
  ⟨⟨by decide, by decide, by decide, by decide, by decide⟩,
    move_conflict (fun _ => ⟨0, 0, 0⟩) "None" false "folder-" 1 1 ["a", "b"]
      ["a", "b", "folder-2"] [("folder-1", ["a"])] ["folder-1", "b", "folder-2"]
      (by decide) (by decide) (by decide) (by decide) (by decide)⟩

end FilesMover
